import Mathlib

/-!
Verification development for the DuckDuckGo AI worker (src/index.ts).

The worker translates DuckDuckGo's server-sent-event stream into
OpenAI-shaped chat completions.  We shallow-embed the core of
`src/index.ts`: the JSON values produced by `JSON.parse`, the per-frame
stream translator `handleStreamResponsePart`, the newline frame decoder
inside `createStreamResponse`, the aggregate translator
`createNormalResponse`, and the conversation-id resolution performed by
`handleChatCompletionsRoute`.  The helpers imported from
`conversation.ts` and `utils.ts` are not part of the sources; they are
modelled from the specification and marked as such.
-/

namespace DuckAI

/-- JSON values as produced by `JSON.parse`.  Numbers are restricted to
integers: every frame this worker handles carries only string fields, and
no theorem below feeds a fractional literal to the parser. -/
inductive Json where
  | null
  | bool (b : Bool)
  | num (n : Int)
  | str (s : String)
  | arr (elems : List Json)
  | obj (fields : List (String × Json))

/-- Whitespace accepted by `JSON.parse` between tokens. -/
def isJsonWs (c : Char) : Bool :=
  c == ' ' || c == '\t' || c == '\n' || c == '\r'

/-- Whitespace removed by JavaScript `String.prototype.trim`. -/
def isTrimWs (c : Char) : Bool :=
  c == ' ' || c == '\t' || c == '\n' || c == '\r' ||
  c == '\x0b' || c == '\x0c' || c == ' ' || c == '﻿'

/-- Skip inter-token JSON whitespace. -/
def skipWs (s : List Char) : List Char :=
  s.dropWhile (fun c => isJsonWs c)

/-- Value of a hexadecimal digit, if the character is one. -/
def hexVal (c : Char) : Option Nat :=
  if '0' ≤ c ∧ c ≤ '9' then some (c.toNat - '0'.toNat)
  else if 'a' ≤ c ∧ c ≤ 'f' then some (c.toNat - 'a'.toNat + 10)
  else if 'A' ≤ c ∧ c ≤ 'F' then some (c.toNat - 'A'.toNat + 10)
  else none

/-- Body of a JSON string literal, after the opening quote: returns the
decoded characters and the input remaining after the closing quote.
Raw control characters are rejected, as `JSON.parse` rejects them. -/
def parseStringBody : Nat → List Char → Option (List Char × List Char)
  | 0, _ => none
  | _, [] => none
  | fuel + 1, c :: rest =>
    if c = '"' then some ([], rest)
    else if c = '\\' then
      match rest with
      | [] => none
      | e :: rest2 =>
        if e = '"' then (parseStringBody fuel rest2).map (fun p => ('"' :: p.1, p.2))
        else if e = '\\' then (parseStringBody fuel rest2).map (fun p => ('\\' :: p.1, p.2))
        else if e = '/' then (parseStringBody fuel rest2).map (fun p => ('/' :: p.1, p.2))
        else if e = 'b' then (parseStringBody fuel rest2).map (fun p => ('\x08' :: p.1, p.2))
        else if e = 'f' then (parseStringBody fuel rest2).map (fun p => ('\x0c' :: p.1, p.2))
        else if e = 'n' then (parseStringBody fuel rest2).map (fun p => ('\n' :: p.1, p.2))
        else if e = 'r' then (parseStringBody fuel rest2).map (fun p => ('\r' :: p.1, p.2))
        else if e = 't' then (parseStringBody fuel rest2).map (fun p => ('\t' :: p.1, p.2))
        else if e = 'u' then
          match rest2 with
          | h1 :: h2 :: h3 :: h4 :: rest3 =>
            match hexVal h1, hexVal h2, hexVal h3, hexVal h4 with
            | some a, some b, some c2, some d =>
              (parseStringBody fuel rest3).map
                (fun p => (Char.ofNat (((a * 16 + b) * 16 + c2) * 16 + d) :: p.1, p.2))
            | _, _, _, _ => none
          | _ => none
        else none
    else if c.toNat < 32 then none
    else (parseStringBody fuel rest).map (fun p => (c :: p.1, p.2))

/-- Maximal run of decimal digits to a natural number; fails on none. -/
def parseDigits (s : List Char) : Option (Nat × List Char) :=
  let ds := s.takeWhile (fun c => c.isDigit)
  if ds.isEmpty then none
  else some (ds.foldl (fun acc c => acc * 10 + (c.toNat - '0'.toNat)) 0,
             s.dropWhile (fun c => c.isDigit))

/-- Mode of the single-function recursive-descent parser: a value, an
object body after the brace, object members with accumulated fields, an
array body after the bracket, or array elements with accumulated values. -/
inductive ParseMode where
  | value
  | objBody
  | members (acc : List (String × Json))
  | arrBody
  | elems (acc : List Json)

/-- Recursive-descent JSON parser, one function so that recursion is
structural on the fuel and the kernel can evaluate it.  The fuel supplied
by `parseJson` is ample for every input used below, and no theorem
depends on fuel adequacy: `parseJson` itself is the model of
`JSON.parse`. -/
def parseRun : Nat → ParseMode → List Char → Option (Json × List Char)
  | 0, _, _ => none
  | fuel + 1, ParseMode.value, s =>
    match skipWs s with
    | [] => none
    | c :: rest =>
      if c = '"' then
        (parseStringBody fuel rest).map (fun p => (Json.str (String.mk p.1), p.2))
      else if c = '\x7b' then parseRun fuel ParseMode.objBody rest
      else if c = '[' then parseRun fuel ParseMode.arrBody rest
      else if c = 't' then
        match rest with
        | 'r' :: 'u' :: 'e' :: r => some (Json.bool true, r)
        | _ => none
      else if c = 'f' then
        match rest with
        | 'a' :: 'l' :: 's' :: 'e' :: r => some (Json.bool false, r)
        | _ => none
      else if c = 'n' then
        match rest with
        | 'u' :: 'l' :: 'l' :: r => some (Json.null, r)
        | _ => none
      else if c = '-' then
        match parseDigits rest with
        | some (n, r) => some (Json.num (-(n : Int)), r)
        | none => none
      else if c.isDigit then
        match parseDigits (c :: rest) with
        | some (n, r) => some (Json.num (n : Int), r)
        | none => none
      else none
  | fuel + 1, ParseMode.objBody, s =>
    match skipWs s with
    | '\x7d' :: r => some (Json.obj [], r)
    | other => parseRun fuel (ParseMode.members []) other
  | fuel + 1, ParseMode.members acc, s =>
    match skipWs s with
    | '"' :: r =>
      match parseStringBody fuel r with
      | none => none
      | some (key, r2) =>
        match skipWs r2 with
        | ':' :: r3 =>
          match parseRun fuel ParseMode.value r3 with
          | none => none
          | some (v, r4) =>
            match skipWs r4 with
            | ',' :: r5 => parseRun fuel (ParseMode.members (acc ++ [(String.mk key, v)])) r5
            | '\x7d' :: r5 => some (Json.obj (acc ++ [(String.mk key, v)]), r5)
            | _ => none
        | _ => none
    | _ => none
  | fuel + 1, ParseMode.arrBody, s =>
    match skipWs s with
    | ']' :: r => some (Json.arr [], r)
    | other => parseRun fuel (ParseMode.elems []) other
  | fuel + 1, ParseMode.elems acc, s =>
    match parseRun fuel ParseMode.value s with
    | none => none
    | some (v, r) =>
      match skipWs r with
      | ',' :: r2 => parseRun fuel (ParseMode.elems (acc ++ [v])) r2
      | ']' :: r2 => some (Json.arr (acc ++ [v]), r2)
      | _ => none

/-- Model of `JSON.parse`: parse one value and require only trailing
whitespace after it; `none` models a thrown `SyntaxError`. -/
def parseJson (s : List Char) : Option Json :=
  match parseRun (2 * s.length + 8) ParseMode.value s with
  | some (j, rest) => if (skipWs rest).isEmpty then some j else none
  | none => none

/-- Property access `j[key]`: a lookup on objects (duplicate keys keep the
last occurrence, as `JSON.parse` does), `undefined` (`none`) otherwise. -/
def jsGetField (j : Json) (key : String) : Option Json :=
  match j with
  | Json.obj fields => (fields.reverse.find? (fun kv => kv.1 == key)).map (fun kv => kv.2)
  | _ => none

/-- JavaScript truthiness of a parsed JSON value. -/
def jsTruthy : Json → Bool
  | Json.null => false
  | Json.bool b => b
  | Json.num n => !(n == 0)
  | Json.str s => !(s == "")
  | Json.arr _ => true
  | Json.obj _ => true

/-- JavaScript string coercion `String(v)` of a parsed JSON value.
Array coercion joins the elements one level deep (a nested array or
object inside an array renders as its own top-level coercion would,
except that deeper nesting is not recursed into; no frame handled in
this development carries a non-string `message`, so only the `str` case
is ever exercised by the theorems). -/
def jsToString : Json → String
  | Json.null => "null"
  | Json.bool true => "true"
  | Json.bool false => "false"
  | Json.num n => toString n
  | Json.str s => s
  | Json.arr xs =>
    String.intercalate "," (xs.map (fun e =>
      match e with
      | Json.null => ""
      | Json.bool true => "true"
      | Json.bool false => "false"
      | Json.num n => toString n
      | Json.str s => s
      | Json.arr _ => ""
      | Json.obj _ => "[object Object]"))
  | Json.obj _ => "[object Object]"

/-- The three fields taken by the destructuring
`const { action, role, message } = JSON.parse(serverStreamPart)` at
src/index.ts:232; `none` is JavaScript `undefined` (field absent). -/
structure ParsedFields where
  action : Option Json
  role : Option Json
  message : Option Json

/-- Outcome of `JSON.parse` followed by the destructuring: `none` when
`JSON.parse` throws, and also when it returns `null` (destructuring
`null` throws a `TypeError`, landing in the same `catch`).  A non-null
primitive destructures to three absent fields. -/
def destructureFields : Option Json → Option ParsedFields
  | none => none
  | some Json.null => none
  | some j =>
    some { action := jsGetField j "action", role := jsGetField j "role",
           message := jsGetField j "message" }

/-- Everything `handleStreamResponsePart` observes about one frame
payload `serverStreamPart`: the parse-and-destructure outcome, whether
the raw text is the literal `[DONE]`, and whether it trims to empty. -/
structure StreamPart where
  parseResult : Option ParsedFields
  isDoneLiteral : Bool
  isBlank : Bool

/-- Build the observable view of a raw frame payload. -/
def toStreamPart (s : List Char) : StreamPart :=
  { parseResult := destructureFields (parseJson s),
    isDoneLiteral := s == "[DONE]".toList,
    isBlank := s.all isTrimWs }

/-- The `delta` object of an emitted chunk choice: `role` and `content`
carry the destructured upstream values (absent fields are omitted by
`JSON.stringify`, so `none` is faithful for both the delta of a message
chunk and the empty `delta: {}` of the synthetic final chunk). -/
structure DeltaObj where
  role : Option Json := none
  content : Option Json := none

/-- One element of the `choices` array of a stream chunk
(`content_filter_results` is the constant `null` in the source and is
omitted here). -/
structure StreamChoice where
  index : Nat
  delta : DeltaObj := {}
  finish_reason : Option String := none

/-- The `OpenAIStreamResponse` chunk shape built at src/index.ts:234. -/
structure OpenAIStreamResponse where
  id : String
  object : String
  created : Nat
  model : String
  system_fingerprint : String
  choices : List StreamChoice

/-- One `writeSSE` call: a serialized chunk, the serialization of the
still-`undefined` buffered chunk (`JSON.stringify(undefined)`), or the
terminal sentinel `data: [DONE]`. -/
inductive SSEEvent where
  | chunk (r : OpenAIStreamResponse)
  | undefChunk
  | doneSig

/-- Per-request mutable state of `createStreamResponse`: the
`messageParts` accumulator, the one-chunk holding buffer
`lastMessagePartResponse`, and the `responseHasDone` latch. -/
structure StreamState where
  messageParts : List Json := []
  lastMessagePartResponse : Option OpenAIStreamResponse := none
  responseHasDone : Bool := false

/-- The state at the start of a streamed exchange. -/
def initialStreamState : StreamState := {}

/-- Model of `getModelFingerprint` (src/index.ts:439): `hashString` with
SHA-1 lives in `utils.ts`, which is not under `src/`, so the hex digest
function is taken as the parameter `sha1`. -/
def getModelFingerprint (sha1 : String → String) (modelName : String) : String :=
  "fp_" ++ (sha1 modelName).take 9

/-- Modelled from the spec: `generateConversationHash` lives in
`conversation.ts`, which is not under `src/`.  Following section 4.1 and
the data model, the fingerprint is a digest of the turn texts joined
with a comma; the 256-bit cryptographic hex digest itself is abstracted
as the parameter `hash`, so every theorem below holds for the real
SHA-256 in particular. -/
def generateConversationHash (hash : String → String) (messages : List String) : String :=
  hash (String.intercalate "," messages)

/-- Modelled from the spec: `getConversationId` lives in
`conversation.ts`, which is not under `src/`.  Section 4.2's
`lookup(key)` over the key-value collaborator, modelled on an
association list whose head is the newest write. -/
def getConversationId (store : List (String × String)) (key : String) : Option String :=
  (store.find? (fun e => e.1 == key)).map (fun e => e.2)

/-- Modelled from the spec: `saveConversationId` lives in
`conversation.ts`, which is not under `src/`.  Section 4.2's
`store(key, token, ttl=24h)` upsert with last-writer-wins semantics; the
TTL is storage hygiene and no claim depends on it, so it is not
modelled. -/
def saveConversationId (store : List (String × String)) (key value : String) :
    List (String × String) :=
  (key, value) :: store

/-- Apply a list of recorded `saveConversationId` calls, oldest first. -/
def applyWrites (store : List (String × String)) (writes : List (String × String)) :
    List (String × String) :=
  writes.foldl (fun s w => saveConversationId s w.1 w.2) store

/-- The ambient per-request data the stream translator closes over:
the two hash collaborators (see `generateConversationHash` and
`getModelFingerprint`), the request model, the normalized message
contents, and the conversation id issued by the upstream response. -/
structure TranslatorCtx where
  hashFn : String → String
  sha1Fn : String → String
  model : String
  userMessages : List String
  conversationId : String

/-- JavaScript `action === "success"` for the destructured field. -/
def isSuccessAction : Option Json → Bool
  | some (Json.str s) => s == "success"
  | _ => false

/-- JavaScript `message === ""` for the destructured field. -/
def isEmptyStringMsg : Option Json → Bool
  | some (Json.str s) => s == ""
  | _ => false

/-- Truthiness of a possibly-absent field (`undefined` is falsy). -/
def truthyOpt : Option Json → Bool
  | some j => jsTruthy j
  | none => false

/-- `lastMessagePartResponse.choices[0].finish_reason = "stop"` — the
buffered chunk always carries exactly one choice, so the head is
updated. -/
def setFinishStop (r : OpenAIStreamResponse) : OpenAIStreamResponse :=
  { r with choices :=
      match r.choices with
      | c :: cs => { c with finish_reason := some "stop" } :: cs
      | [] => [] }

/-- `writeSSE({data: JSON.stringify(lastMessagePartResponse)})` where the
buffer may still be `undefined`. -/
def emitOpt : Option OpenAIStreamResponse → SSEEvent
  | some r => SSEEvent.chunk r
  | none => SSEEvent.undefChunk

/-- `messageParts.join("")` (the parts are always truthy, hence never
`null`, so `Array.prototype.join`'s coercion is plain `String(v)`). -/
def joinParts (ps : List Json) : String :=
  String.join (ps.map jsToString)

/-- The translator step `handleStreamResponsePart`
(src/index.ts:226-331) on one frame payload, returning the new state,
the `writeSSE` calls made, and the `saveConversationId` calls made.
The literal-`[DONE]` comparison sits after the `JSON.parse` of the same
string, exactly as in the source (the `catch` swallows a parse failure
before that comparison can run). -/
def handleStreamResponsePart (ctx : TranslatorCtx) (created : Nat) (st : StreamState)
    (part : StreamPart) : StreamState × List SSEEvent × List (String × String) :=
  if st.responseHasDone then (st, [], [])
  else
    match part.parseResult with
    | none => (st, [], [])
    | some f =>
      let newClientResponse : OpenAIStreamResponse :=
        { id := "chatcmpl-duckduckgo-ai", object := "chat.completion.chunk",
          created := created, model := ctx.model,
          system_fingerprint := getModelFingerprint ctx.sha1Fn ctx.model,
          choices := [] }
      let successWithNoMessage := isSuccessAction f.action && f.message.isNone
      let successWithEmptyMessage := isSuccessAction f.action && isEmptyStringMsg f.message
      let emptyStreamMessage := part.isBlank
      if truthyOpt f.message then
        let flushed :=
          match st.lastMessagePartResponse with
          | some last => [SSEEvent.chunk last]
          | none => []
        let resp :=
          { newClientResponse with
            choices := [{ index := 0,
                          delta := { role := f.role, content := f.message },
                          finish_reason := none }] }
        ({ st with
           messageParts := st.messageParts ++ [f.message.getD Json.null],
           lastMessagePartResponse := some resp },
         flushed, [])
      else if (successWithNoMessage || successWithEmptyMessage) && !emptyStreamMessage then
        let last := st.lastMessagePartResponse.map setFinishStop
        let writes :=
          if st.messageParts.isEmpty then []
          else [(generateConversationHash ctx.hashFn
                   (ctx.userMessages ++ [joinParts st.messageParts]),
                 ctx.conversationId)]
        ({ st with lastMessagePartResponse := last, responseHasDone := true },
         [emitOpt last, SSEEvent.doneSig], writes)
      else if part.isDoneLiteral then
        let flushed :=
          match st.lastMessagePartResponse with
          | some last => [SSEEvent.chunk last]
          | none => []
        let resp :=
          { newClientResponse with
            choices := [{ index := 0, delta := {}, finish_reason := some "stop" }] }
        let writes :=
          if st.messageParts.isEmpty then []
          else [(generateConversationHash ctx.hashFn
                   (ctx.userMessages ++ [joinParts st.messageParts]),
                 ctx.conversationId)]
        ({ st with responseHasDone := true },
         flushed ++ [SSEEvent.chunk resp, SSEEvent.doneSig], writes)
      else (st, [], [])

/-- Fold the translator over a sequence of frame payloads, each paired
with the wall-clock second observed when it is handled; emissions and
cache writes are concatenated in order. -/
def processParts (ctx : TranslatorCtx) :
    StreamState → List (StreamPart × Nat) →
    StreamState × List SSEEvent × List (String × String)
  | st, [] => (st, [], [])
  | st, (p, t) :: rest =>
    let r1 := handleStreamResponsePart ctx t st p
    let r2 := processParts ctx r1.1 rest
    (r2.1, r1.2.1 ++ r2.2.1, r1.2.2 ++ r2.2.2)

/-- Pair each frame with the clock value at its position. -/
def timed (clock : Nat → Nat) : List StreamPart → List (StreamPart × Nat)
  | [] => []
  | p :: ps => (p, clock 0) :: timed (fun n => clock (n + 1)) ps

/-- Recognize the terminal sentinel among emissions. -/
def isDoneSig : SSEEvent → Bool
  | SSEEvent.doneSig => true
  | _ => false

/-- Number of terminal sentinels in a list of emissions. -/
def countDone (es : List SSEEvent) : Nat :=
  es.countP isDoneSig

/-- The spec's closed classification of one upstream frame. -/
inductive UpstreamEvent where
  | messageDelta (role : String) (text : String)
  | successNoMessage
  | successEmptyMessage
  | blankFrame
  | doneMarker
  | malformed

/-- The observable view of each event's raw frame payload.  A message
delta and the two success idioms are JSON objects, so they parse and are
neither blank nor the done literal.  The literal `[DONE]` payload, a
blank payload, and a malformed payload are all rejected by `JSON.parse`
(`[DONE]` is not valid JSON), so their `parseResult` is `none`; the
lemma `toPart_doneMarker_realized` below checks this against the actual
string pipeline. -/
def UpstreamEvent.toPart : UpstreamEvent → StreamPart
  | UpstreamEvent.messageDelta role text =>
    { parseResult := some { action := some (Json.str "success"),
                            role := some (Json.str role),
                            message := some (Json.str text) },
      isDoneLiteral := false, isBlank := false }
  | UpstreamEvent.successNoMessage =>
    { parseResult := some { action := some (Json.str "success"), role := none,
                            message := none },
      isDoneLiteral := false, isBlank := false }
  | UpstreamEvent.successEmptyMessage =>
    { parseResult := some { action := some (Json.str "success"), role := none,
                            message := some (Json.str "") },
      isDoneLiteral := false, isBlank := false }
  | UpstreamEvent.blankFrame =>
    { parseResult := none, isDoneLiteral := false, isBlank := true }
  | UpstreamEvent.doneMarker =>
    { parseResult := none, isDoneLiteral := true, isBlank := false }
  | UpstreamEvent.malformed =>
    { parseResult := none, isDoneLiteral := false, isBlank := false }

/-- Split on newline, keeping empty fragments, as JavaScript
`String.prototype.split("\n")` does. -/
def splitNl : List Char → List (List Char)
  | [] => [[]]
  | c :: cs =>
    if c = '\n' then [] :: splitNl cs
    else
      match splitNl cs with
      | t :: ts => (c :: t) :: ts
      | [] => [[c]]

/-- One read of the stream loop in `createStreamResponse`
(src/index.ts:339-354): append the delivery to the carry-over buffer,
split on newline, keep the last fragment as the new buffer, and strip
the fixed 6-character `data: ` prefix from every complete frame. -/
def decodeStep (buffer delivery : List Char) : List (List Char) × List Char :=
  let parts := splitNl (buffer ++ delivery)
  (parts.dropLast.map (fun p => p.drop 6), parts.getLastD [])

/-- The whole read loop over a sequence of deliveries: complete stripped
frames in order, and the carry-over buffer that is discarded when the
stream signals end-of-data. -/
def decodeDeliveries : List Char → List (List Char) → List (List Char) × List Char
  | buffer, [] => ([], buffer)
  | buffer, d :: ds =>
    let r1 := decodeStep buffer d
    let r2 := decodeDeliveries r1.2 ds
    (r1.1 ++ r2.1, r2.2)

/-- Decoder composed with the translator: the streamed response of
`createStreamResponse` as a function of the raw upstream deliveries. -/
def streamPipeline (ctx : TranslatorCtx) (clock : Nat → Nat)
    (deliveries : List (List Char)) :
    StreamState × List SSEEvent × List (String × String) :=
  processParts ctx initialStreamState
    (timed clock (((decodeDeliveries [] deliveries).1).map toStreamPart))

/-- The `parseJson["message"]` read of `createNormalResponse`
(src/index.ts:394-397): `none` when the parse throws, when the parsed
value is `null` (property access on `null` throws, landing in the same
`catch`), or when the field is absent. -/
def messageFieldOf (part : List Char) : Option Json :=
  match parseJson part with
  | none => none
  | some Json.null => none
  | some j => jsGetField j "message"

/-- One iteration of the aggregation loop (src/index.ts:391-401): strip
the 6-character prefix, parse, and append a truthy `message` field to
the accumulated content. -/
def aggregateFoldPart (acc : String) (rawPart : List Char) : String :=
  match messageFieldOf (rawPart.drop 6) with
  | some m => if jsTruthy m then acc ++ jsToString m else acc
  | none => acc

/-- `responseContent` after the loop over all newline-split parts of the
fully read body. -/
def responseContentParts (parts : List (List Char)) : String :=
  parts.foldl aggregateFoldPart ""

/-- The zero-valued `usage` block of the aggregate response. -/
structure UsageInfo where
  prompt_tokens : Nat
  completion_tokens : Nat
  total_tokens : Nat

/-- The assistant message inside the single aggregate choice. -/
structure ChoiceMessage where
  role : String
  content : String

/-- One element of the aggregate `choices` array (`logprobs` is the
constant `null` in the source and is omitted here). -/
structure NormalChoice where
  index : Nat
  message : ChoiceMessage
  finish_reason : String

/-- The `OpenAIResponse` object built at src/index.ts:403-425. -/
structure OpenAIResponse where
  id : String
  object : String
  created : Nat
  model : String
  system_fingerprint : String
  choices : List NormalChoice
  usage : UsageInfo

/-- `createNormalResponse` (src/index.ts:361-433) after the body has
been read and split on newline: the completion object and the
`saveConversationId` calls (exactly one, performed unconditionally). -/
def createNormalResponseCore (hash sha1 : String → String) (model : String)
    (userMessages : List String) (conversationId : String) (created : Nat)
    (parts : List (List Char)) : OpenAIResponse × List (String × String) :=
  let responseContent := responseContentParts parts
  ({ id := "chatcmpl-duckduckgo-ai", object := "chat.completion", created := created,
     model := model, system_fingerprint := getModelFingerprint sha1 model,
     choices := [{ index := 0,
                   message := { role := "assistant", content := responseContent },
                   finish_reason := "stop" }],
     usage := { prompt_tokens := 0, completion_tokens := 0, total_tokens := 0 } },
   [(generateConversationHash hash (userMessages ++ [responseContent]), conversationId)])

/-- `createNormalResponse` on the raw body bytes. -/
def createNormalResponseModel (hash sha1 : String → String) (model : String)
    (userMessages : List String) (conversationId : String) (created : Nat)
    (body : List Char) : OpenAIResponse × List (String × String) :=
  createNormalResponseCore hash sha1 model userMessages conversationId created (splitNl body)

/-- One inbound message turn. -/
structure ChatMessage where
  role : String
  content : String

/-- The role rewrite of src/index.ts:124-130: a `system` turn is
forwarded as `user`, every other turn unchanged. -/
def normalizeMessages (messages : List ChatMessage) : List ChatMessage :=
  messages.map (fun m =>
    { role := if m.role = "system" then "user" else m.role, content := m.content })

/-- `userMessages` (src/index.ts:131): the contents of the normalized
turns, in order. -/
def userMessagesOf (messages : List ChatMessage) : List String :=
  messages.map (fun m => m.content)

/-- How token resolution ends: a 503 returned before the chat
collaborator is ever contacted, or an invocation of the chat
collaborator with the resolved conversation id. -/
inductive RouteResult where
  | unavailable
  | invokeChat (conversationId : String)

/-- Token resolution outcome together with its observable collaborator
calls: which cache key was looked up (if any) and whether the status
endpoint was contacted for a fresh token. -/
structure ResolveTrace where
  result : RouteResult
  cacheKeyQueried : Option String
  statusCalled : Bool

/-- The conversation-id resolution of `handleChatCompletionsRoute`
(src/index.ts:134-169).  `header` is the inbound `x-vqd-4` value
(`none` when absent; JavaScript treats an empty value as absent via the
`!conversationId` test), `freshToken` the `x-vqd-4` header of the status
response (`none` when missing).  The hit test
`if (previousConversationId)` at line 149 is a truthiness test: a
cached value that is the empty string counts as a miss, so the status
endpoint is called before any failure, and `RouteResult.unavailable` is
the 503 returned only when no non-empty id was obtained by any path —
always before `fetch(chatURL)`. -/
def resolveConversation (hash : String → String) (store : List (String × String))
    (header : Option String) (freshToken : Option String)
    (userMessages : List String) : ResolveTrace :=
  if header.getD "" = "" then
    let previousConversationHash := generateConversationHash hash (userMessages.dropLast)
    let previousConversationId := getConversationId store previousConversationHash
    let hit := !(previousConversationId.getD "" == "")
    let conversationId :=
      if hit then previousConversationId.getD ""
      else freshToken.getD ""
    if conversationId = "" then
      { result := RouteResult.unavailable, cacheKeyQueried := some previousConversationHash,
        statusCalled := !hit }
    else
      { result := RouteResult.invokeChat conversationId,
        cacheKeyQueried := some previousConversationHash, statusCalled := !hit }
  else
    { result := RouteResult.invokeChat (header.getD ""), cacheKeyQueried := none,
      statusCalled := false }

/-- The texts of the delta events, concatenated in arrival order. -/
def concatDeltaTexts : List UpstreamEvent → String
  | [] => ""
  | UpstreamEvent.messageDelta _ t :: rest => t ++ concatDeltaTexts rest
  | _ :: rest => concatDeltaTexts rest

/-- A raw frame line realizes an event, as far as the aggregate
translator can observe: a delta line carries exactly that non-empty text
in its `message` field, and every other event's line carries no truthy
`message` field. -/
def lineEncodes (line : List Char) : UpstreamEvent → Bool
  | UpstreamEvent.messageDelta _ text =>
    (match messageFieldOf (line.drop 6) with
     | some (Json.str s) => s == text
     | _ => false) && !(text == "")
  | _ => !(truthyOpt (messageFieldOf (line.drop 6)))

/-- Whether a frame carries a truthy `message` field, i.e. whether the
translator's delta branch fires on it. -/
def partTruthyMessage (p : StreamPart) : Bool :=
  match p.parseResult with
  | some f => truthyOpt f.message
  | none => false

section TranslatorLemmas

@[simp] theorem countDone_nil : countDone [] = 0 := rfl

@[simp] theorem countDone_cons (e : SSEEvent) (es : List SSEEvent) :
    countDone (e :: es) = countDone es + (if isDoneSig e then 1 else 0) := by
  simp [countDone, List.countP_cons]

@[simp] theorem countDone_append (a b : List SSEEvent) :
    countDone (a ++ b) = countDone a + countDone b := by
  simp [countDone, List.countP_append]

@[simp] theorem isDoneSig_chunk (r : OpenAIStreamResponse) :
    isDoneSig (SSEEvent.chunk r) = false := rfl

@[simp] theorem isDoneSig_undefChunk : isDoneSig SSEEvent.undefChunk = false := rfl

@[simp] theorem isDoneSig_doneSig : isDoneSig SSEEvent.doneSig = true := rfl

/-- The latch at src/index.ts:227-229: a finished translator ignores
every further frame. -/
theorem handle_of_done (ctx : TranslatorCtx) (created : Nat) (st : StreamState)
    (part : StreamPart) (hd : st.responseHasDone = true) :
    handleStreamResponsePart ctx created st part = (st, [], []) := by
  simp [handleStreamResponsePart, hd]

/-- A frame whose payload fails to parse (or destructure) is swallowed
by the `catch`: no state change, no emission, no cache write. -/
theorem handle_of_parse_none (ctx : TranslatorCtx) (created : Nat) (st : StreamState)
    (part : StreamPart) (hd : st.responseHasDone = false)
    (hp : part.parseResult = none) :
    handleStreamResponsePart ctx created st part = (st, [], []) := by
  simp [handleStreamResponsePart, hd, hp]

/-- The delta branch (src/index.ts:253-276). -/
theorem handle_delta (ctx : TranslatorCtx) (created : Nat) (st : StreamState)
    (part : StreamPart) (f : ParsedFields) (hd : st.responseHasDone = false)
    (hp : part.parseResult = some f) (hm : truthyOpt f.message = true) :
    handleStreamResponsePart ctx created st part =
      ({ st with
         messageParts := st.messageParts ++ [f.message.getD Json.null],
         lastMessagePartResponse := some
           { id := "chatcmpl-duckduckgo-ai", object := "chat.completion.chunk",
             created := created, model := ctx.model,
             system_fingerprint := getModelFingerprint ctx.sha1Fn ctx.model,
             choices := [{ index := 0,
                           delta := { role := f.role, content := f.message },
                           finish_reason := none }] } },
       (match st.lastMessagePartResponse with
        | some last => [SSEEvent.chunk last]
        | none => ([] : List SSEEvent)),
       []) := by
  simp [handleStreamResponsePart, hd, hp, hm]

/-- The explicit end-of-turn branch (src/index.ts:277-295). -/
theorem handle_success (ctx : TranslatorCtx) (created : Nat) (st : StreamState)
    (part : StreamPart) (f : ParsedFields) (hd : st.responseHasDone = false)
    (hp : part.parseResult = some f) (hm : truthyOpt f.message = false)
    (hs : ((isSuccessAction f.action && f.message.isNone)
            || (isSuccessAction f.action && isEmptyStringMsg f.message)) = true)
    (hb : part.isBlank = false) :
    handleStreamResponsePart ctx created st part =
      ({ st with
         lastMessagePartResponse := st.lastMessagePartResponse.map setFinishStop,
         responseHasDone := true },
       [emitOpt (st.lastMessagePartResponse.map setFinishStop), SSEEvent.doneSig],
       if st.messageParts.isEmpty then []
       else [(generateConversationHash ctx.hashFn
                (ctx.userMessages ++ [joinParts st.messageParts]),
              ctx.conversationId)]) := by
  simp [handleStreamResponsePart, hd, hp, hm, hs, hb]

/-- The literal-`[DONE]` branch (src/index.ts:296-323); reachable only
for a part whose payload both parsed and equals `[DONE]`, which no
string produces. -/
theorem handle_doneLit (ctx : TranslatorCtx) (created : Nat) (st : StreamState)
    (part : StreamPart) (f : ParsedFields) (hd : st.responseHasDone = false)
    (hp : part.parseResult = some f) (hm : truthyOpt f.message = false)
    (hs : (((isSuccessAction f.action && f.message.isNone)
             || (isSuccessAction f.action && isEmptyStringMsg f.message))
           && !part.isBlank) = false)
    (hl : part.isDoneLiteral = true) :
    handleStreamResponsePart ctx created st part =
      ({ st with responseHasDone := true },
       (match st.lastMessagePartResponse with
        | some last => [SSEEvent.chunk last]
        | none => ([] : List SSEEvent)) ++
       [SSEEvent.chunk
          { id := "chatcmpl-duckduckgo-ai", object := "chat.completion.chunk",
            created := created, model := ctx.model,
            system_fingerprint := getModelFingerprint ctx.sha1Fn ctx.model,
            choices := [{ index := 0, delta := {}, finish_reason := some "stop" }] },
        SSEEvent.doneSig],
       if st.messageParts.isEmpty then []
       else [(generateConversationHash ctx.hashFn
                (ctx.userMessages ++ [joinParts st.messageParts]),
              ctx.conversationId)]) := by
  simp [handleStreamResponsePart, hd, hp, hm, hs, hl]

/-- The final `throw` swallowed by the `catch` (src/index.ts:324-330):
an unclassifiable parsed frame changes nothing. -/
theorem handle_other (ctx : TranslatorCtx) (created : Nat) (st : StreamState)
    (part : StreamPart) (f : ParsedFields) (hd : st.responseHasDone = false)
    (hp : part.parseResult = some f) (hm : truthyOpt f.message = false)
    (hs : (((isSuccessAction f.action && f.message.isNone)
             || (isSuccessAction f.action && isEmptyStringMsg f.message))
           && !part.isBlank) = false)
    (hl : part.isDoneLiteral = false) :
    handleStreamResponsePart ctx created st part = (st, [], []) := by
  simp [handleStreamResponsePart, hd, hp, hm, hs, hl]

@[simp] theorem isDoneSig_emitOpt (o : Option OpenAIStreamResponse) :
    isDoneSig (emitOpt o) = false := by
  cases o <;> rfl

/-- A finished translator ignores every remaining frame of the run. -/
theorem processParts_of_done (ctx : TranslatorCtx) :
    ∀ (ps : List (StreamPart × Nat)) (st : StreamState), st.responseHasDone = true →
      processParts ctx st ps = (st, [], []) := by
  intro ps
  induction ps with
  | nil => intro st _; rfl
  | cons pt rest ih =>
    intro st h
    rcases pt with ⟨p, t⟩
    simp [processParts, handle_of_done ctx t st p h, ih st h]

/-- Processing a concatenation of frame runs composes statewise, with
emissions and writes concatenated. -/
theorem processParts_append (ctx : TranslatorCtx) :
    ∀ (xs ys : List (StreamPart × Nat)) (st : StreamState),
      processParts ctx st (xs ++ ys) =
        ((processParts ctx (processParts ctx st xs).1 ys).1,
         (processParts ctx st xs).2.1 ++ (processParts ctx (processParts ctx st xs).1 ys).2.1,
         (processParts ctx st xs).2.2 ++ (processParts ctx (processParts ctx st xs).1 ys).2.2) := by
  intro xs
  induction xs with
  | nil => intro ys st; simp [processParts]
  | cons pt rest ih =>
    intro ys st
    rcases pt with ⟨p, t⟩
    simp [processParts, ih, List.append_assoc]

/-- One step emits the terminal sentinel exactly when it trips the
`responseHasDone` latch. -/
theorem handle_countDone (ctx : TranslatorCtx) (created : Nat) (st : StreamState)
    (part : StreamPart) (hd : st.responseHasDone = false) :
    countDone (handleStreamResponsePart ctx created st part).2.1 =
      (if (handleStreamResponsePart ctx created st part).1.responseHasDone = true
       then 1 else 0) := by
  rcases hp : part.parseResult with _ | f
  · rw [handle_of_parse_none ctx created st part hd hp]
    simp [hd]
  · by_cases hm : truthyOpt f.message = true
    · rw [handle_delta ctx created st part f hd hp hm]
      rcases st.lastMessagePartResponse with _ | last <;> simp [hd]
    · rw [Bool.not_eq_true] at hm
      by_cases hc : (((isSuccessAction f.action && f.message.isNone)
             || (isSuccessAction f.action && isEmptyStringMsg f.message))
           && !part.isBlank) = true
      · have hs := (Bool.and_eq_true_iff.mp hc).1
        have hb : part.isBlank = false := by
          have := (Bool.and_eq_true_iff.mp hc).2
          simpa using this
        rw [handle_success ctx created st part f hd hp hm hs hb]
        simp
      · rw [Bool.not_eq_true] at hc
        by_cases hl : part.isDoneLiteral = true
        · rw [handle_doneLit ctx created st part f hd hp hm hc hl]
          rcases st.lastMessagePartResponse with _ | last <;> simp
        · rw [Bool.not_eq_true] at hl
          rw [handle_other ctx created st part f hd hp hm hc hl]
          simp [hd]

/-- Over a whole run, the terminal sentinel is emitted exactly once if
the run trips the `responseHasDone` latch and never otherwise; in
particular it is never emitted twice. -/
theorem processParts_countDone (ctx : TranslatorCtx) :
    ∀ (ps : List (StreamPart × Nat)) (st : StreamState),
      countDone (processParts ctx st ps).2.1 =
        (if st.responseHasDone = false ∧ (processParts ctx st ps).1.responseHasDone = true
         then 1 else 0) := by
  intro ps
  induction ps with
  | nil =>
    intro st
    by_cases h : st.responseHasDone = true <;> simp [processParts, h]
  | cons pt rest ih =>
    intro st
    rcases pt with ⟨p, t⟩
    by_cases hd : st.responseHasDone = true
    · rw [processParts_of_done ctx _ st hd]
      simp [hd]
    · rw [Bool.not_eq_true] at hd
      simp only [processParts]
      by_cases h1 : (handleStreamResponsePart ctx t st p).1.responseHasDone = true
      · simp only [processParts_of_done ctx rest _ h1]
        simp [handle_countDone ctx t st p hd, h1, hd]
      · rw [Bool.not_eq_true] at h1
        simp [handle_countDone ctx t st p hd, h1, hd, ih]

/-- A step on a frame that carries no truthy `message` leaves the
`messageParts` accumulator empty and writes nothing to the cache. -/
theorem handle_no_delta (ctx : TranslatorCtx) (created : Nat) (st : StreamState)
    (part : StreamPart) (hm : partTruthyMessage part = false)
    (hmp : st.messageParts = []) :
    (handleStreamResponsePart ctx created st part).1.messageParts = []
    ∧ (handleStreamResponsePart ctx created st part).2.2 = [] := by
  by_cases hd : st.responseHasDone = true
  · rw [handle_of_done ctx created st part hd]
    exact ⟨hmp, rfl⟩
  · rw [Bool.not_eq_true] at hd
    rcases hp : part.parseResult with _ | f
    · rw [handle_of_parse_none ctx created st part hd hp]
      exact ⟨hmp, rfl⟩
    · have hm' : truthyOpt f.message = false := by
        simpa [partTruthyMessage, hp] using hm
      by_cases hc : (((isSuccessAction f.action && f.message.isNone)
             || (isSuccessAction f.action && isEmptyStringMsg f.message))
           && !part.isBlank) = true
      · have hs := (Bool.and_eq_true_iff.mp hc).1
        have hb : part.isBlank = false := by
          have := (Bool.and_eq_true_iff.mp hc).2
          simpa using this
        rw [handle_success ctx created st part f hd hp hm' hs hb]
        simp [hmp]
      · rw [Bool.not_eq_true] at hc
        by_cases hl : part.isDoneLiteral = true
        · rw [handle_doneLit ctx created st part f hd hp hm' hc hl]
          simp [hmp]
        · rw [Bool.not_eq_true] at hl
          rw [handle_other ctx created st part f hd hp hm' hc hl]
          exact ⟨hmp, rfl⟩

/-- A run in which no frame carries a truthy `message` keeps the
accumulator empty and never writes to the continuity cache. -/
theorem processParts_no_delta (ctx : TranslatorCtx) :
    ∀ (ps : List (StreamPart × Nat)) (st : StreamState),
      (∀ pt ∈ ps, partTruthyMessage pt.1 = false) → st.messageParts = [] →
      (processParts ctx st ps).1.messageParts = []
      ∧ (processParts ctx st ps).2.2 = [] := by
  intro ps
  induction ps with
  | nil => intro st _ hmp; exact ⟨hmp, rfl⟩
  | cons pt rest ih =>
    intro st h hmp
    rcases pt with ⟨p, t⟩
    have hp : partTruthyMessage p = false := h (p, t) (by simp)
    have step := handle_no_delta ctx t st p hp hmp
    have tail := ih (handleStreamResponsePart ctx t st p).1
      (fun q hq => h q (by simp [hq])) step.1
    simp only [processParts]
    exact ⟨tail.1, by simp [step.2, tail.2]⟩

/-- Reindexing the clock across an appended run. -/
theorem timed_congr (f g : Nat → Nat) :
    ∀ ps : List StreamPart, (∀ n, f n = g n) → timed f ps = timed g ps := by
  intro ps
  induction ps generalizing f g with
  | nil => intro _; rfl
  | cons p ps ih =>
    intro h
    simp only [timed, h 0]
    rw [ih _ _ (fun n => h (n + 1))]

/-- `timed` distributes over appending, shifting the clock. -/
theorem timed_append (clock : Nat → Nat) :
    ∀ xs ys : List StreamPart,
      timed clock (xs ++ ys) =
        timed clock xs ++ timed (fun n => clock (n + xs.length)) ys := by
  intro xs
  induction xs generalizing clock with
  | nil =>
    intro ys
    simp only [List.nil_append, timed, List.length_nil]
    exact timed_congr _ _ ys (fun n => by simp)
  | cons p xs ih =>
    intro ys
    simp only [List.cons_append, timed, List.length_cons, List.append_eq]
    rw [ih (fun n => clock (n + 1)) ys,
        timed_congr (fun n => clock (n + (xs.length + 1)))
          (fun n => clock (n + xs.length + 1)) ys
          (fun n => congrArg clock (by omega))]

/-- Joining string parts with the empty separator is concatenation. -/
theorem joinParts_str (texts : List String) :
    joinParts (texts.map Json.str) = String.join texts := by
  have h : ∀ ts : List String, List.map (jsToString ∘ Json.str) ts = ts := by
    intro ts
    induction ts with
    | nil => rfl
    | cons a l ih => simp [Function.comp, jsToString, ih]
  simp [joinParts, List.map_map, h]

/-- A run of non-empty delta frames appends their texts (as strings) to
the accumulator, leaves the latch open, and writes nothing. -/
theorem processParts_delta_run (ctx : TranslatorCtx) (role : String) :
    ∀ (texts : List String) (clock : Nat → Nat) (st : StreamState),
      (∀ t ∈ texts, t ≠ "") → st.responseHasDone = false →
      (processParts ctx st (timed clock (texts.map (fun t =>
          UpstreamEvent.toPart (UpstreamEvent.messageDelta role t))))).1.messageParts
          = st.messageParts ++ texts.map Json.str
      ∧ (processParts ctx st (timed clock (texts.map (fun t =>
          UpstreamEvent.toPart (UpstreamEvent.messageDelta role t))))).1.responseHasDone = false
      ∧ (processParts ctx st (timed clock (texts.map (fun t =>
          UpstreamEvent.toPart (UpstreamEvent.messageDelta role t))))).2.2 = [] := by
  intro texts
  induction texts with
  | nil => intro clock st _ hd; simp [timed, processParts, hd]
  | cons t ts ih =>
    intro clock st h hd
    have ht : t ≠ "" := h t (by simp)
    have htr : truthyOpt (some (Json.str t)) = true := by
      simp [truthyOpt, jsTruthy, ht]
    have hstep := handle_delta ctx (clock 0) st
      (UpstreamEvent.toPart (UpstreamEvent.messageDelta role t))
      { action := some (Json.str "success"), role := some (Json.str role),
        message := some (Json.str t) } hd rfl htr
    simp only [List.map_cons, timed, processParts]
    obtain ⟨ha, hb, hc⟩ := ih (fun n => clock (n + 1))
      (handleStreamResponsePart ctx (clock 0) st
        (UpstreamEvent.toPart (UpstreamEvent.messageDelta role t))).1
      (fun x hx => h x (by simp [hx]))
      (by rw [hstep]; simp [hd])
    refine ⟨?_, hb, ?_⟩
    · rw [ha, hstep]
      simp [List.append_assoc]
    · rw [hc, hstep]
      simp

end TranslatorLemmas

section DecoderLemmas

theorem splitNl_ne_nil (s : List Char) : splitNl s ≠ [] := by
  induction s with
  | nil => simp [splitNl]
  | cons c cs ih =>
    simp only [splitNl]
    by_cases h : c = '\n'
    · simp [h]
    · simp only [h, if_false]
      rcases hs : splitNl cs with _ | ⟨t, ts⟩ <;> simp

theorem noNl_splitNl (s : List Char) (h : '\n' ∉ s) : splitNl s = [s] := by
  induction s with
  | nil => rfl
  | cons c cs ih =>
    have hc : ¬(c = '\n') := fun hc => h (by simp [hc])
    have hcs : '\n' ∉ cs := fun hm => h (by simp [hm])
    simp only [splitNl, hc, if_false, ih hcs]

theorem getLastD_ne_nil {α : Type} (l : List α) (a b : α) (h : l ≠ []) :
    l.getLastD a = l.getLastD b := by
  cases l with
  | nil => exact absurd rfl h
  | cons x xs => rw [List.getLastD_cons, List.getLastD_cons]

theorem splitNl_append (a b : List Char) :
    splitNl (a ++ b) =
      (splitNl a).dropLast ++ splitNl ((splitNl a).getLastD [] ++ b) := by
  induction a with
  | nil => simp [splitNl]
  | cons c cs ih =>
    by_cases h : c = '\n'
    · subst h
      rw [List.cons_append]
      rw [show splitNl ('\n' :: (cs ++ b)) = [] :: splitNl (cs ++ b) from by simp [splitNl]]
      rw [show splitNl ('\n' :: cs) = [] :: splitNl cs from by simp [splitNl]]
      rcases hs : splitNl cs with _ | ⟨t, ts⟩
      · exact absurd hs (splitNl_ne_nil cs)
      · rw [ih, hs]
        rcases ts with _ | ⟨t2, ts2⟩
        · simp only [List.dropLast_single, List.dropLast_cons₂, List.getLastD_cons,
            List.getLastD_nil, List.nil_append]
          simp
        · simp only [List.dropLast_cons₂, List.getLastD_cons]
          simp [List.cons_append]
    · have hcons : ∀ s : List Char, splitNl (c :: s) =
          (match splitNl s with
           | t :: ts => (c :: t) :: ts
           | [] => [[c]]) := fun s => by simp [splitNl, h]
      rcases hs : splitNl cs with _ | ⟨t, ts⟩
      · exact absurd hs (splitNl_ne_nil cs)
      rcases hsb : splitNl (cs ++ b) with _ | ⟨u, us⟩
      · exact absurd hsb (splitNl_ne_nil _)
      rw [List.cons_append, hcons (cs ++ b), hsb, hcons cs, hs]
      rw [hs, hsb] at ih
      rcases ts with _ | ⟨t2, ts2⟩
      · -- splitNl cs = [t] : ih : u :: us = splitNl (t ++ b)
        simp only [List.dropLast_single, List.getLastD_cons, List.getLastD_nil,
          List.nil_append] at ih ⊢
        rw [List.cons_append, hcons (t ++ b), ← ih]
      · -- splitNl cs = t :: t2 :: ts2
        simp only [List.dropLast_cons₂, List.getLastD_cons] at ih ⊢
        rw [List.cons_append] at ih ⊢
        cases ih
        rfl





theorem splitNl_getLastD_noNl (s : List Char) : '\n' ∉ (splitNl s).getLastD [] := by
  induction s with
  | nil => simp [splitNl]
  | cons c cs ih =>
    simp only [splitNl]
    by_cases h : c = '\n'
    · simp only [h, if_true]
      rw [List.getLastD_cons]
      exact ih
    · simp only [h, if_false]
      rcases hs : splitNl cs with _ | ⟨t, ts⟩
      · exact absurd hs (splitNl_ne_nil cs)
      · rw [hs] at ih
        rcases ts with _ | ⟨t2, ts2⟩
        · simp only [List.getLastD_cons, List.getLastD_nil] at ih ⊢
          intro hm
          rcases List.mem_cons.mp hm with h1 | h2
          · exact h h1.symm
          · exact ih h2
        · simp only [List.getLastD_cons] at ih ⊢
          exact ih

theorem getLastD_append {α : Type} (A B : List α) (d : α) (h : B ≠ []) :
    (A ++ B).getLastD d = B.getLastD d := by
  induction A with
  | nil => rfl
  | cons a A ih =>
    rw [List.cons_append, List.getLastD_cons]
    have hne : A ++ B ≠ [] := by simp [h]
    rw [getLastD_ne_nil (A ++ B) a d hne, ih]

theorem decodeDeliveries_eq :
    ∀ (ds : List (List Char)) (buf : List Char), '\n' ∉ buf →
      decodeDeliveries buf ds =
        ((splitNl (buf ++ ds.flatten)).dropLast.map (fun p => p.drop 6),
         (splitNl (buf ++ ds.flatten)).getLastD []) := by
  intro ds
  induction ds with
  | nil =>
    intro buf h
    simp [decodeDeliveries, noNl_splitNl buf h]
  | cons d ds ih =>
    intro buf h
    simp only [decodeDeliveries, decodeStep]
    rw [ih ((splitNl (buf ++ d)).getLastD []) (splitNl_getLastD_noNl _)]
    rw [show buf ++ (d :: ds).flatten = (buf ++ d) ++ ds.flatten from by simp [List.append_assoc]]
    rw [splitNl_append (buf ++ d) ds.flatten]
    have hne : splitNl ((splitNl (buf ++ d)).getLastD [] ++ ds.flatten) ≠ [] := splitNl_ne_nil _
    rw [List.dropLast_append_of_ne_nil _ hne]
    rw [getLastD_append _ _ _ hne]
    simp [List.map_append]

end DecoderLemmas

section AggregateLemmas

/-- A part without a truthy `message` field contributes nothing to the
aggregate content. -/
theorem aggregateFoldPart_of_not_truthy (acc : String) (a : List Char)
    (h : truthyOpt (messageFieldOf (a.drop 6)) = false) :
    aggregateFoldPart acc a = acc := by
  rcases hmf : messageFieldOf (a.drop 6) with _ | m
  · simp [aggregateFoldPart, hmf]
  · rw [hmf] at h
    simp only [truthyOpt] at h
    simp [aggregateFoldPart, hmf, h]

/-- Folding the aggregation loop over lines realizing a decoded event
sequence appends exactly the concatenated delta texts. -/
theorem foldl_aggregate_encodes :
    ∀ (lines : List (List Char)) (events : List UpstreamEvent),
      List.Forall₂ (fun l e => lineEncodes l e = true) lines events →
      ∀ acc : String, lines.foldl aggregateFoldPart acc = acc ++ concatDeltaTexts events := by
  intro lines events h
  induction h with
  | nil => intro acc; simp [concatDeltaTexts]
  | @cons a b l1 l2 h1 h2 ih =>
    intro acc
    cases b with
    | messageDelta r t =>
      simp only [lineEncodes, Bool.and_eq_true] at h1
      have ht : t ≠ "" := by
        have := h1.2
        simpa using this
      have hfold : aggregateFoldPart acc a = acc ++ t := by
        rcases hmf : messageFieldOf (a.drop 6) with _ | m
        · rw [hmf] at h1
          simp at h1
        · rw [hmf] at h1
          rcases m with _ | bb | nn | s | aa | oo
          · simp at h1
          · simp at h1
          · simp at h1
          · have hst : s = t := by simpa using h1.1
            subst hst
            simp [aggregateFoldPart, hmf, jsTruthy, jsToString, ht]
          · simp at h1
          · simp at h1
      simp only [List.foldl_cons, hfold, ih, concatDeltaTexts, String.append_assoc]
    | successNoMessage =>
      simp only [List.foldl_cons,
        aggregateFoldPart_of_not_truthy acc a (by simpa [lineEncodes] using h1),
        ih, concatDeltaTexts]
    | successEmptyMessage =>
      simp only [List.foldl_cons,
        aggregateFoldPart_of_not_truthy acc a (by simpa [lineEncodes] using h1),
        ih, concatDeltaTexts]
    | blankFrame =>
      simp only [List.foldl_cons,
        aggregateFoldPart_of_not_truthy acc a (by simpa [lineEncodes] using h1),
        ih, concatDeltaTexts]
    | doneMarker =>
      simp only [List.foldl_cons,
        aggregateFoldPart_of_not_truthy acc a (by simpa [lineEncodes] using h1),
        ih, concatDeltaTexts]
    | malformed =>
      simp only [List.foldl_cons,
        aggregateFoldPart_of_not_truthy acc a (by simpa [lineEncodes] using h1),
        ih, concatDeltaTexts]

end AggregateLemmas

/-- A concrete translator context used by the closed evaluations and
witnesses: identity digests stand in for the abstract hash parameters. -/
def demoCtx : TranslatorCtx :=
  { hashFn := fun s => s, sha1Fn := fun s => s, model := "gpt-3.5-turbo-0125",
    userMessages := ["Yo"], conversationId := "tok-1" }

/-- The raw upstream body of the C1 scenario: two deltas and the
literal done marker, newline framed. -/
def doneScenarioBody : List Char :=
  ("data: \x7b\"role\":\"assistant\",\"message\":\"Hi\"\x7d\n" ++
   "data: \x7b\"role\":\"assistant\",\"message\":\" there\"\x7d\n" ++
   "data: [DONE]\n").toList

/-- C1: the claim says the event sequence
`[messageDelta "Hi", messageDelta " there", doneMarker]` yields a delta
chunk for each text, a final chunk with `finish_reason=stop`, and the
terminal sentinel.  The code cannot do this: `JSON.parse("[DONE]")`
throws before the `serverStreamPart === "[DONE]"` comparison at
src/index.ts:296 ever runs, so the `catch` swallows the done marker
(first conjunct: its observable view has `parseResult = none`).  The
run therefore emits exactly one record — the flushed chunk for `"Hi"` —
with no final chunk and no sentinel (second conjunct), and the full
byte-level pipeline on the same three frames emits one record and no
sentinel (remaining conjuncts). -/
theorem claim1_doneMarker_swallowed :
    toStreamPart ("[DONE]".toList) = UpstreamEvent.toPart UpstreamEvent.doneMarker
    ∧ (processParts demoCtx initialStreamState
        [(UpstreamEvent.toPart (UpstreamEvent.messageDelta "assistant" "Hi"), 0),
         (UpstreamEvent.toPart (UpstreamEvent.messageDelta "assistant" " there"), 1),
         (UpstreamEvent.toPart UpstreamEvent.doneMarker, 2)]).2.1
      = [SSEEvent.chunk
          { id := "chatcmpl-duckduckgo-ai", object := "chat.completion.chunk",
            created := 0, model := "gpt-3.5-turbo-0125",
            system_fingerprint := "fp_gpt-3.5-t",
            choices := [{ index := 0,
                          delta := { role := some (Json.str "assistant"),
                                     content := some (Json.str "Hi") },
                          finish_reason := none }] }]
    ∧ countDone (streamPipeline demoCtx (fun n => n) [doneScenarioBody]).2.1 = 0
    ∧ (streamPipeline demoCtx (fun n => n) [doneScenarioBody]).2.1.length = 1 :=
  ⟨rfl, rfl, rfl, rfl⟩

/-- C2: the terminal sentinel is emitted at most once.  Once the
translator has latched `responseHasDone`, any further frame produces no
state change, no emission and no write (first conjunct); over any run
from the initial state at most one sentinel is emitted (second
conjunct); and the specific sequence `successEmptyMessage` followed by
the literal done marker emits it exactly once (third conjunct). -/
theorem claim2_sentinel_at_most_once :
    (∀ (ctx : TranslatorCtx) (created : Nat) (st : StreamState) (p : StreamPart),
      st.responseHasDone = true →
      handleStreamResponsePart ctx created st p = (st, [], []))
    ∧ (∀ (ctx : TranslatorCtx) (ps : List (StreamPart × Nat)),
        countDone (processParts ctx initialStreamState ps).2.1 ≤ 1)
    ∧ (∀ (ctx : TranslatorCtx) (t1 t2 : Nat),
        countDone (processParts ctx initialStreamState
          [(UpstreamEvent.toPart UpstreamEvent.successEmptyMessage, t1),
           (UpstreamEvent.toPart UpstreamEvent.doneMarker, t2)]).2.1 = 1) := by
  refine ⟨fun ctx created st p h => handle_of_done ctx created st p h, ?_, ?_⟩
  · intro ctx ps
    rw [processParts_countDone ctx ps initialStreamState]
    split <;> simp
  · intro ctx t1 t2
    have hstep := handle_success ctx t1 initialStreamState
      (UpstreamEvent.toPart UpstreamEvent.successEmptyMessage)
      { action := some (Json.str "success"), role := none,
        message := some (Json.str "") } rfl rfl rfl (by rfl) rfl
    simp only [processParts, hstep]
    rw [handle_of_done ctx t2 _ (UpstreamEvent.toPart UpstreamEvent.doneMarker) rfl]
    simp [initialStreamState]

/-- C2 witness: the ignore-when-done conjunct applied at a concrete
finished state and frame. -/
theorem claim2_sentinel_at_most_once_witness :
    handleStreamResponsePart demoCtx 7
      { messageParts := [], lastMessagePartResponse := none, responseHasDone := true }
      (UpstreamEvent.toPart UpstreamEvent.successEmptyMessage)
      = ({ messageParts := [], lastMessagePartResponse := none, responseHasDone := true },
         [], []) :=
  claim2_sentinel_at_most_once.1 demoCtx 7
    { messageParts := [], lastMessagePartResponse := none, responseHasDone := true }
    (UpstreamEvent.toPart UpstreamEvent.successEmptyMessage) rfl

/-- C3: the frame decoder is invariant to how the byte stream is split
into deliveries: over any delivery sequence it yields exactly the
newline-separated complete frames of the concatenated bytes, each
stripped of its 6-character prefix, with the trailing fragment kept as
the carry-over buffer (first conjunct), so any delivery split of the
same bytes decodes identically (second conjunct).  Concretely, the two
deliveries cut inside the word `Hello` reassemble into exactly one
frame (third conjunct), whose payload parses to an event whose text is
`"Hello"` (fourth conjunct). -/
theorem claim3_decoder_reassembly :
    (∀ ds : List (List Char),
      decodeDeliveries [] ds =
        ((splitNl ds.flatten).dropLast.map (fun p => p.drop 6),
         (splitNl ds.flatten).getLastD []))
    ∧ (∀ ds : List (List Char), decodeDeliveries [] ds = decodeDeliveries [] [ds.flatten])
    ∧ decodeDeliveries [] ["data: \x7b\"message\":\"He".toList, "llo\"\x7d\n".toList]
        = (["\x7b\"message\":\"Hello\"\x7d".toList], [])
    ∧ destructureFields (parseJson ("\x7b\"message\":\"Hello\"\x7d".toList))
        = some { action := none, role := none, message := some (Json.str "Hello") } := by
  have hnf : ∀ ds : List (List Char),
      decodeDeliveries [] ds =
        ((splitNl ds.flatten).dropLast.map (fun p => p.drop 6),
         (splitNl ds.flatten).getLastD []) := by
    intro ds
    have := decodeDeliveries_eq ds [] (by simp)
    simpa using this
  refine ⟨hnf, ?_, rfl, rfl⟩
  intro ds
  rw [hnf ds, hnf [ds.flatten]]
  simp

/-- C9: on end-of-data the carry-over buffer is discarded.  Appending a
final delivery containing no newline leaves the decoded frames — and
hence everything the translator emits or writes — unchanged; the
trailing bytes only extend the discarded buffer and are never parsed. -/
theorem claim9_trailing_buffer_discarded (ctx : TranslatorCtx) (clock : Nat → Nat)
    (ds : List (List Char)) (tail : List Char) (h : '\n' ∉ tail) :
    (decodeDeliveries [] (ds ++ [tail])).1 = (decodeDeliveries [] ds).1
    ∧ (decodeDeliveries [] (ds ++ [tail])).2 = (decodeDeliveries [] ds).2 ++ tail
    ∧ streamPipeline ctx clock (ds ++ [tail]) = streamPipeline ctx clock ds := by
  have h1 := decodeDeliveries_eq ds [] (by simp)
  have h2 := decodeDeliveries_eq (ds ++ [tail]) [] (by simp)
  have hflat : (ds ++ [tail]).flatten = ds.flatten ++ tail := by simp
  have hsplit : splitNl (ds.flatten ++ tail) =
      (splitNl ds.flatten).dropLast ++ [(splitNl ds.flatten).getLastD [] ++ tail] := by
    rw [splitNl_append ds.flatten tail]
    rw [noNl_splitNl ((splitNl ds.flatten).getLastD [] ++ tail) ?hnl]
    case hnl =>
      intro hm
      rcases List.mem_append.mp hm with hm1 | hm2
      · exact splitNl_getLastD_noNl ds.flatten hm1
      · exact h hm2
  have hframes : (decodeDeliveries [] (ds ++ [tail])).1 = (decodeDeliveries [] ds).1 := by
    rw [h1, h2]
    simp only [hflat, List.nil_append, hsplit]
    rw [List.dropLast_concat]
  refine ⟨hframes, ?_, ?_⟩
  · rw [h1, h2]
    simp only [hflat, List.nil_append, hsplit]
    rw [getLastD_append _ _ _ (by simp)]
    simp
  · unfold streamPipeline
    rw [hframes]

/-- C4: continuity round-trip.  A streamed exchange of non-empty deltas
closed by an explicit end-of-turn marker (`successEmptyMessage` or
`successNoMessage`) performs exactly one cache write, keyed by the
fingerprint of the full message contents extended with the joined
assistant reply, storing the upstream-issued conversation id (first
conjunct).  An immediately following request over that history extended
by the assistant reply and one new turn, with no caller-supplied
header, looks up the fingerprint of all-but-the-last turn — the very
key just written — and finds that id (second conjunct); when the stored
id is non-empty, resolution dispatches to the chat collaborator with
exactly it (third conjunct).  The fingerprint and the store are
spec-modelled (`conversation.ts` is not under `src/`), with the hex
digest abstracted as the universally quantified `hash`. -/
theorem claim4_continuity_roundtrip (hash sha1 : String → String) (model : String)
    (um : List String) (cid : String) (kv : List (String × String))
    (clock : Nat → Nat) (texts : List String) (marker : UpstreamEvent)
    (freshToken : Option String) (newTurn : String)
    (hne : texts ≠ []) (hall : ∀ t ∈ texts, t ≠ "")
    (hmk : marker = UpstreamEvent.successEmptyMessage ∨ marker = UpstreamEvent.successNoMessage) :
    (processParts
        { hashFn := hash, sha1Fn := sha1, model := model, userMessages := um,
          conversationId := cid } initialStreamState
        (timed clock ((texts.map (fun t =>
            UpstreamEvent.toPart (UpstreamEvent.messageDelta "assistant" t)))
          ++ [UpstreamEvent.toPart marker]))).2.2
      = [(generateConversationHash hash (um ++ [String.join texts]), cid)]
    ∧ getConversationId
        (applyWrites kv [(generateConversationHash hash (um ++ [String.join texts]), cid)])
        (generateConversationHash hash ((um ++ [String.join texts, newTurn]).dropLast))
      = some cid
    ∧ (cid ≠ "" →
        (resolveConversation hash
          (applyWrites kv [(generateConversationHash hash (um ++ [String.join texts]), cid)])
          none freshToken (um ++ [String.join texts, newTurn])).result
        = RouteResult.invokeChat cid) := by
  set ctx : TranslatorCtx :=
    { hashFn := hash, sha1Fn := sha1, model := model, userMessages := um,
      conversationId := cid } with hctx
  have hdrop : (um ++ [String.join texts, newTurn]).dropLast = um ++ [String.join texts] := by
    rw [show um ++ [String.join texts, newTurn]
          = (um ++ [String.join texts]) ++ [newTurn] from by simp]
    exact List.dropLast_concat
  refine ⟨?_, ?_, ?_⟩
  · rw [timed_append, processParts_append]
    obtain ⟨hmp, hdone, hw1⟩ :=
      processParts_delta_run ctx "assistant" texts clock initialStreamState hall rfl
    rw [hw1]
    have hempty : ((processParts ctx initialStreamState
        (timed clock (texts.map (fun t =>
          UpstreamEvent.toPart (UpstreamEvent.messageDelta "assistant" t))))).1.messageParts).isEmpty = false := by
      rw [hmp]
      simp [initialStreamState]
      exact hne
    rcases hmk with rfl | rfl
    · rw [show timed (fun n => clock (n + (texts.map (fun t =>
          UpstreamEvent.toPart (UpstreamEvent.messageDelta "assistant" t))).length))
          [UpstreamEvent.toPart UpstreamEvent.successEmptyMessage]
          = [(UpstreamEvent.toPart UpstreamEvent.successEmptyMessage,
              clock (0 + (texts.map (fun t =>
                UpstreamEvent.toPart (UpstreamEvent.messageDelta "assistant" t))).length))]
          from rfl]
      simp only [processParts]
      rw [handle_success ctx _ _ (UpstreamEvent.toPart UpstreamEvent.successEmptyMessage)
        { action := some (Json.str "success"), role := none, message := some (Json.str "") }
        hdone rfl rfl (by rfl) rfl]
      simp only [hempty, if_false, hmp]
      simp [initialStreamState, joinParts_str, hctx, hne]
    · rw [show timed (fun n => clock (n + (texts.map (fun t =>
          UpstreamEvent.toPart (UpstreamEvent.messageDelta "assistant" t))).length))
          [UpstreamEvent.toPart UpstreamEvent.successNoMessage]
          = [(UpstreamEvent.toPart UpstreamEvent.successNoMessage,
              clock (0 + (texts.map (fun t =>
                UpstreamEvent.toPart (UpstreamEvent.messageDelta "assistant" t))).length))]
          from rfl]
      simp only [processParts]
      rw [handle_success ctx _ _ (UpstreamEvent.toPart UpstreamEvent.successNoMessage)
        { action := some (Json.str "success"), role := none, message := none }
        hdone rfl rfl (by rfl) rfl]
      simp only [hempty, if_false, hmp]
      simp [initialStreamState, joinParts_str, hctx, hne]
  · rw [hdrop]
    simp [applyWrites, saveConversationId, getConversationId, List.find?]
  · intro hcid
    simp [resolveConversation, hdrop, applyWrites, saveConversationId, getConversationId,
      List.find?, hcid]

/-- C4 witness: a concrete two-delta exchange stores its mapping under
the comma-joined fingerprint. -/
theorem claim4_continuity_roundtrip_witness :
    (processParts
        { hashFn := fun s => s, sha1Fn := fun s => s, model := "gpt-3.5-turbo-0125",
          userMessages := ["Yo"], conversationId := "tok-1" } initialStreamState
        (timed (fun n => n) (((["Hi", " there"] : List String).map (fun t =>
            UpstreamEvent.toPart (UpstreamEvent.messageDelta "assistant" t)))
          ++ [UpstreamEvent.toPart UpstreamEvent.successEmptyMessage]))).2.2
      = [(generateConversationHash (fun s => s) (["Yo"] ++ [String.join ["Hi", " there"]]),
          "tok-1")] :=
  (claim4_continuity_roundtrip (fun s => s) (fun s => s) "gpt-3.5-turbo-0125" ["Yo"] "tok-1"
    [] (fun n => n) ["Hi", " there"] UpstreamEvent.successEmptyMessage none "Next"
    (by decide) (by decide) (Or.inl rfl)).1

/-- C10: in streaming mode, a request in which no frame carried a
non-empty `message` before the termination event writes nothing to the
continuity cache, even though the terminal sentinel is still emitted
exactly once. -/
theorem claim10_no_write_without_delta (ctx : TranslatorCtx)
    (ps : List (StreamPart × Nat)) (tEnd : Nat)
    (h : ∀ pt ∈ ps, partTruthyMessage pt.1 = false) :
    (processParts ctx initialStreamState
        (ps ++ [(UpstreamEvent.toPart UpstreamEvent.successEmptyMessage, tEnd)])).2.2 = []
    ∧ countDone (processParts ctx initialStreamState
        (ps ++ [(UpstreamEvent.toPart UpstreamEvent.successEmptyMessage, tEnd)])).2.1 = 1 := by
  have hrun := processParts_no_delta ctx ps initialStreamState h rfl
  have hfinal : (processParts ctx initialStreamState
      (ps ++ [(UpstreamEvent.toPart UpstreamEvent.successEmptyMessage, tEnd)])).1.responseHasDone
      = true := by
    rw [processParts_append]
    by_cases hd : (processParts ctx initialStreamState ps).1.responseHasDone = true
    · simp only [processParts_of_done ctx _ _ hd]
      exact hd
    · rw [Bool.not_eq_true] at hd
      simp only [processParts]
      rw [handle_success ctx tEnd _ (UpstreamEvent.toPart UpstreamEvent.successEmptyMessage)
        { action := some (Json.str "success"), role := none, message := some (Json.str "") }
        hd rfl rfl (by rfl) rfl]
  constructor
  · rw [processParts_append, hrun.2]
    by_cases hd : (processParts ctx initialStreamState ps).1.responseHasDone = true
    · simp only [processParts_of_done ctx _ _ hd]
      simp
    · rw [Bool.not_eq_true] at hd
      simp only [processParts]
      rw [handle_success ctx tEnd _ (UpstreamEvent.toPart UpstreamEvent.successEmptyMessage)
        { action := some (Json.str "success"), role := none, message := some (Json.str "") }
        hd rfl rfl (by rfl) rfl]
      simp [hrun.1]
  · rw [processParts_countDone]
    simp [hfinal, show initialStreamState.responseHasDone = false from rfl]

/-- C10 witness: a malformed frame followed by the termination event
writes nothing and still emits one sentinel. -/
theorem claim10_no_write_without_delta_witness :
    (processParts demoCtx initialStreamState
        ([(UpstreamEvent.toPart UpstreamEvent.malformed, 0)] ++
         [(UpstreamEvent.toPart UpstreamEvent.successEmptyMessage, 1)])).2.2 = [] :=
  (claim10_no_write_without_delta demoCtx [(UpstreamEvent.toPart UpstreamEvent.malformed, 0)] 1
    (by decide)).1

/-- C9 witness: the theorem applied to a concrete split with a trailing
half-frame. -/
theorem claim9_trailing_buffer_discarded_witness :
    (decodeDeliveries []
        (["data: \x7b\"message\":\"Hi\"\x7d\n".toList] ++ ["data: \x7b\"mess".toList])).1
      = (decodeDeliveries [] ["data: \x7b\"message\":\"Hi\"\x7d\n".toList]).1 :=
  (claim9_trailing_buffer_discarded demoCtx (fun n => n)
    ["data: \x7b\"message\":\"Hi\"\x7d\n".toList] ("data: \x7b\"mess".toList)
    (by decide)).1


/-- C5: token resolution order of `handleChatCompletionsRoute`.  A
caller-supplied non-empty `x-vqd-4` header is used as-is, with no cache
lookup and no status call (first conjunct; JavaScript's
`!conversationId` test treats an empty header value as absent, which is
the `header.getD "" = ""` guard of the other conjuncts).  Otherwise the
fingerprint of all-but-the-last turn is looked up and a non-empty hit
is reused without contacting the status endpoint (second conjunct).  On
a miss the status endpoint is called for a fresh token, and an empty or
missing fresh token makes the request fail with the 503
`RouteResult.unavailable` — structurally before any chat-collaborator
invocation, which only the `RouteResult.invokeChat` outcome performs
(third conjunct).  A cached hit whose stored value is the empty string
is falsy at the `if (previousConversationId)` test of src/index.ts:149,
so it is treated exactly like a miss: the status endpoint is still
called before any 503 (fourth conjunct).  The fingerprint and store are
spec-modelled (`conversation.ts` is not under `src/`). -/
theorem claim5_token_resolution_order (hash : String → String)
    (kv : List (String × String)) (freshToken : Option String) (um : List String) :
    (∀ h : String, h ≠ "" →
      resolveConversation hash kv (some h) freshToken um =
        { result := RouteResult.invokeChat h, cacheKeyQueried := none, statusCalled := false })
    ∧ (∀ header : Option String, header.getD "" = "" →
        ∀ prev : String,
          getConversationId kv (generateConversationHash hash um.dropLast) = some prev →
          prev ≠ "" →
          resolveConversation hash kv header freshToken um =
            { result := RouteResult.invokeChat prev,
              cacheKeyQueried := some (generateConversationHash hash um.dropLast),
              statusCalled := false })
    ∧ (∀ header : Option String, header.getD "" = "" →
        getConversationId kv (generateConversationHash hash um.dropLast) = none →
          resolveConversation hash kv header freshToken um =
            { result := if freshToken.getD "" = "" then RouteResult.unavailable
                        else RouteResult.invokeChat (freshToken.getD ""),
              cacheKeyQueried := some (generateConversationHash hash um.dropLast),
              statusCalled := true })
    ∧ (∀ header : Option String, header.getD "" = "" →
        getConversationId kv (generateConversationHash hash um.dropLast) = some "" →
          resolveConversation hash kv header freshToken um =
            { result := if freshToken.getD "" = "" then RouteResult.unavailable
                        else RouteResult.invokeChat (freshToken.getD ""),
              cacheKeyQueried := some (generateConversationHash hash um.dropLast),
              statusCalled := true }) := by
  refine ⟨?_, ?_, ?_, ?_⟩
  · intro h hne
    simp [resolveConversation, hne]
  · intro header hh prev hhit hne
    simp [resolveConversation, hh, hhit, hne]
  · intro header hh hmiss
    by_cases hf : freshToken.getD "" = "" <;>
      simp [resolveConversation, hh, hmiss, hf]
  · intro header hh hhit
    by_cases hf : freshToken.getD "" = "" <;>
      simp [resolveConversation, hh, hhit, hf]

/-- C5 witness: a caller-supplied header is used as-is against an empty
cache. -/
theorem claim5_token_resolution_order_witness :
    resolveConversation (fun s => s) [] (some "tok-9") none ["Yo"] =
      { result := RouteResult.invokeChat "tok-9", cacheKeyQueried := none,
        statusCalled := false } :=
  (claim5_token_resolution_order (fun s => s) [] none ["Yo"]).1 "tok-9" (by decide)

/-- C6: the aggregate translator.  For any fully decoded body whose
lines realize an event sequence, it produces exactly one completion
object: assistant content is the concatenation of the delta texts in
arrival order, `finish_reason` is `stop`, and all three usage counters
are zero (first conjunct); it then stores the fingerprint of the full
history extended with that content (second conjunct).  The witness
instantiates the delta sequence `["Hi", " there"]` plus the done
marker, whose content is `"Hi there"`. -/
theorem claim6_aggregate_translation (hash sha1 : String → String) (model : String)
    (um : List String) (cid : String) (created : Nat)
    (lines : List (List Char)) (events : List UpstreamEvent)
    (henc : List.Forall₂ (fun l e => lineEncodes l e = true) lines events) :
    (createNormalResponseCore hash sha1 model um cid created lines).1
      = { id := "chatcmpl-duckduckgo-ai", object := "chat.completion", created := created,
          model := model, system_fingerprint := getModelFingerprint sha1 model,
          choices := [{ index := 0,
                        message := { role := "assistant",
                                     content := concatDeltaTexts events },
                        finish_reason := "stop" }],
          usage := { prompt_tokens := 0, completion_tokens := 0, total_tokens := 0 } }
    ∧ (createNormalResponseCore hash sha1 model um cid created lines).2
      = [(generateConversationHash hash (um ++ [concatDeltaTexts events]), cid)] := by
  have hc : responseContentParts lines = concatDeltaTexts events := by
    have := foldl_aggregate_encodes lines events henc ""
    simpa [responseContentParts] using this
  constructor <;> simp [createNormalResponseCore, hc]

/-- C6 witness: the concrete three-frame body yields the single
completion whose content is `"Hi there"`. -/
theorem claim6_aggregate_translation_witness :
    (createNormalResponseCore (fun s => s) (fun s => s) "gpt-3.5-turbo-0125" ["Yo"] "tok-1" 5
        ["data: \x7b\"message\":\"Hi\"\x7d".toList,
         "data: \x7b\"message\":\" there\"\x7d".toList,
         "data: [DONE]".toList]).1
      = { id := "chatcmpl-duckduckgo-ai", object := "chat.completion", created := 5,
          model := "gpt-3.5-turbo-0125",
          system_fingerprint := getModelFingerprint (fun s => s) "gpt-3.5-turbo-0125",
          choices := [{ index := 0,
                        message := { role := "assistant",
                                     content := concatDeltaTexts
                                       [UpstreamEvent.messageDelta "assistant" "Hi",
                                        UpstreamEvent.messageDelta "assistant" " there",
                                        UpstreamEvent.doneMarker] },
                        finish_reason := "stop" }],
          usage := { prompt_tokens := 0, completion_tokens := 0, total_tokens := 0 } } :=
  (claim6_aggregate_translation (fun s => s) (fun s => s) "gpt-3.5-turbo-0125" ["Yo"] "tok-1" 5
    ["data: \x7b\"message\":\"Hi\"\x7d".toList,
     "data: \x7b\"message\":\" there\"\x7d".toList,
     "data: [DONE]".toList]
    [UpstreamEvent.messageDelta "assistant" "Hi",
     UpstreamEvent.messageDelta "assistant" " there",
     UpstreamEvent.doneMarker]
    (List.Forall₂.cons (by decide)
      (List.Forall₂.cons (by decide)
        (List.Forall₂.cons (by decide) List.Forall₂.nil)))).1

/-- C7: malformed-frame resilience.  A frame whose payload fails to
parse causes no emission, no state change and no cache write in the
stream translator, whatever the current state (first conjunct);
inserting such a frame anywhere in a run leaves the whole run's output
unchanged (second conjunct); and the aggregate translator likewise
skips an unparsable line without touching the accumulated content
(third conjunct). -/
theorem claim7_malformed_resilience :
    (∀ (ctx : TranslatorCtx) (created : Nat) (st : StreamState) (p : StreamPart),
      p.parseResult = none →
      handleStreamResponsePart ctx created st p = (st, [], []))
    ∧ (∀ (ctx : TranslatorCtx) (st : StreamState) (xs ys : List (StreamPart × Nat))
        (p : StreamPart) (t : Nat), p.parseResult = none →
        processParts ctx st (xs ++ (p, t) :: ys) = processParts ctx st (xs ++ ys))
    ∧ (∀ (parts1 parts2 : List (List Char)) (bad : List Char) (acc : String),
        parseJson (bad.drop 6) = none →
        (parts1 ++ bad :: parts2).foldl aggregateFoldPart acc
          = (parts1 ++ parts2).foldl aggregateFoldPart acc) := by
  have hid : ∀ (ctx : TranslatorCtx) (created : Nat) (st : StreamState) (p : StreamPart),
      p.parseResult = none → handleStreamResponsePart ctx created st p = (st, [], []) := by
    intro ctx created st p hp
    by_cases hd : st.responseHasDone = true
    · exact handle_of_done ctx created st p hd
    · rw [Bool.not_eq_true] at hd
      exact handle_of_parse_none ctx created st p hd hp
  refine ⟨hid, ?_, ?_⟩
  · intro ctx st xs ys p t hp
    rw [processParts_append ctx xs ((p, t) :: ys) st, processParts_append ctx xs ys st]
    simp [processParts, hid ctx t _ p hp]
  · intro parts1 parts2 bad acc hp
    have hstep : ∀ a : String, aggregateFoldPart a bad = a := by
      intro a
      simp [aggregateFoldPart, messageFieldOf, hp]
    simp [List.foldl_append, List.foldl_cons, hstep]

/-- C7 witness: a malformed frame between the two deltas leaves the run
identical to the run without it. -/
theorem claim7_malformed_resilience_witness :
    processParts demoCtx initialStreamState
        ([(UpstreamEvent.toPart (UpstreamEvent.messageDelta "assistant" "Hi"), 0)] ++
         (UpstreamEvent.toPart UpstreamEvent.malformed, 1) ::
         [(UpstreamEvent.toPart (UpstreamEvent.messageDelta "assistant" " there"), 2)])
      = processParts demoCtx initialStreamState
        ([(UpstreamEvent.toPart (UpstreamEvent.messageDelta "assistant" "Hi"), 0)] ++
         [(UpstreamEvent.toPart (UpstreamEvent.messageDelta "assistant" " there"), 2)]) :=
  claim7_malformed_resilience.2.1 demoCtx initialStreamState
    [(UpstreamEvent.toPart (UpstreamEvent.messageDelta "assistant" "Hi"), 0)]
    [(UpstreamEvent.toPart (UpstreamEvent.messageDelta "assistant" " there"), 2)]
    (UpstreamEvent.toPart UpstreamEvent.malformed) 1 rfl

/-- C8: role normalization.  Each forwarded turn rewrites role `system`
to `user` and keeps every other role and every content string unchanged
(first conjunct); the forwarded contents equal the inbound contents
(second conjunct); hence the conversation fingerprint, computed from
contents only, is unaffected by the rewrite (third conjunct).  The
fingerprint is spec-modelled (`conversation.ts` is not under `src/`). -/
theorem claim8_role_normalization (hash : String → String) (msgs : List ChatMessage) :
    (∀ i : Nat, (normalizeMessages msgs)[i]?
        = (msgs[i]?).map (fun m =>
            { role := if m.role = "system" then "user" else m.role,
              content := m.content }))
    ∧ userMessagesOf (normalizeMessages msgs) = userMessagesOf msgs
    ∧ generateConversationHash hash (userMessagesOf (normalizeMessages msgs))
        = generateConversationHash hash (userMessagesOf msgs) := by
  have h2 : userMessagesOf (normalizeMessages msgs) = userMessagesOf msgs := by
    simp [userMessagesOf, normalizeMessages, List.map_map]
  refine ⟨?_, h2, by rw [h2]⟩
  intro i
  simp [normalizeMessages, List.getElem?_map]


end DuckAI

